import Mathlib

/-!
Verification of the feature-alignment logic of the World Bank population
predictor app (`app.py`).

The app collects four fields (country code, year, country ID, country name),
builds a single-row data frame, one-hot encodes the three categorical
columns with `pd.get_dummies`, aligns the resulting columns to the trained
model's `feature_names_in_`, and calls `model.predict`.

A single-row data frame is embedded as an ordered association list from
column name to cell value; the alignment steps of lines 58-79 of `app.py`
are transcribed as functions on such lists.
-/

namespace PopulationApp

/-- A cell value of the single-row frame: an integer year or indicator, or a
raw categorical string. -/
inductive Value where
  | i : Int → Value
  | s : String → Value
deriving DecidableEq, Repr

/-- Rendering of a cell value as text, as `pd.get_dummies` does when it
builds the dummy column name from the observed categorical value. -/
def valueStr : Value → String
  | .i n => toString n
  | .s v => v

/-- The four user-supplied fields of `app.py` (lines 35-38). -/
structure RawInput where
  countryiso3code : String
  date : Int
  country_id : String
  country_value : String
deriving DecidableEq, Repr

/-- The single-row frame `input_df` built on lines 58-63 of `app.py`. -/
def input_df (r : RawInput) : List (String × Value) :=
  [("countryiso3code", Value.s r.countryiso3code),
   ("date", Value.i r.date),
   ("country.id", Value.s r.country_id),
   ("country.value", Value.s r.country_value)]

/-- Single-row `pd.get_dummies` with a `columns` argument: the columns not being
encoded keep their value and their relative order at the front; then, for
each encoded column (in the order of `cols`), a single indicator column
named `<column>_<observed value>` with value 1 is appended. -/
def get_dummies (row : List (String × Value)) (cols : List String) :
    List (String × Value) :=
  row.filter (fun p => !(cols.contains p.1)) ++
  cols.filterMap (fun c =>
    (row.find? (fun p => p.1 == c)).map
      (fun p => (c ++ "_" ++ valueStr p.2, Value.i 1)))

/-- The encoded frame `input_encoded` of line 66 of `app.py`: `pd.get_dummies`
applied to `input_df` with `columns` the three categorical fields. -/
def input_encoded (r : RawInput) : List (String × Value) :=
  get_dummies (input_df r) ["countryiso3code", "country.id", "country.value"]

/-- The zero-fill loop of lines 73-75 of `app.py`: every training column not
already present in the frame is appended with value 0, working left to right
through `training_columns` on the current state of the frame. -/
def addMissing (enc : List (String × Value)) : List String → List (String × Value)
  | [] => enc
  | c :: rest =>
    if enc.any (fun p => p.1 == c) then addMissing enc rest
    else addMissing (enc ++ [(c, Value.i 0)]) rest

/-- Column selection `input_encoded[training_columns]` of line 79 of
`app.py`: one column per requested name, in the requested order, taking the
value of the first column with that label; `none` models the `KeyError`
pandas raises when a requested column is absent. -/
def selectCols (enc : List (String × Value)) : List String → Option (List (String × Value))
  | [] => some []
  | c :: rest =>
    match enc.find? (fun p => p.1 == c) with
    | none => none
    | some p => (selectCols enc rest).map (fun v => (c, p.2) :: v)

/-- The whole alignment block of lines 70-79 of `app.py`: zero-fill the
missing training columns, then, when the training schema is non-empty,
drop the extra columns and reorder to the schema; with an empty schema the
frame is passed through unchanged. -/
def align (r : RawInput) (training_columns : List String) :
    Option (List (String × Value)) :=
  let filled := addMissing (input_encoded r) training_columns
  if training_columns.length > 0 then selectCols filled training_columns
  else some filled

/-- The trained model artifact, abstract: a predictor that may reject its
input (an exception, as `Except.error`), and the optional
`feature_names_in_` attribute. -/
structure Model where
  predict : List (String × Value) → Except String Int
  feature_names_in_ : Option (List String)

/-- Line 70 of `app.py`: `model.feature_names_in_ if hasattr(model,
'feature_names_in_') else []`. -/
def training_columns_of (m : Model) : List String :=
  match m.feature_names_in_ with
  | some cols => cols
  | none => []

/-- What one run of the predict-button handler reports. -/
inductive Outcome where
  | success (prediction : Int)
  | failure (message : String) (input_shape : Nat × Nat) (model_expects : Option Nat)
deriving DecidableEq, Repr

/-- The predict-button handler, lines 58-110 of `app.py`: build and align
the feature vector, then call `model.predict` inside `try`. A failing
`predict` is caught and reported together with the input shape (1 row by
number of columns) and the model's expected feature count (`none` renders
as the string Unknown, the `else` branch of line 110). The outer `none`
models an uncaught exception of the alignment itself, which sits outside
the `try` block. -/
def predict_block (m : Model) (r : RawInput) : Option Outcome :=
  let training_columns := training_columns_of m
  match align r training_columns with
  | none => none
  | some vec =>
    match m.predict vec with
    | .ok p => some (.success p)
    | .error e =>
      some (.failure e (1, vec.length)
        (if training_columns.isEmpty then none else some training_columns.length))

/-- One element of the rendered page. -/
inductive UIElem where
  | title (text : String)
  | description (text : String)
  | error_box (text : String)
  | success_box (text : String)
  | text_field (label : String)
  | number_field (label : String)
  | button (label : String)
  | sidebar_help
  | footer
deriving DecidableEq, Repr

/-- Does the element belong to the input form (a field or the submit
button)? -/
def is_form_element : UIElem → Bool
  | .text_field _ => true
  | .number_field _ => true
  | .button _ => true
  | _ => false

/-- Is the element an error box? -/
def is_error_box : UIElem → Bool
  | .error_box _ => true
  | _ => false

/-- The static page structure of `app.py`: title and description always
render (lines 10-11); when `load_model` returned `None` only the error box
from line 20 is shown, and the whole input form (lines 25-55) is skipped
because it sits inside `if model is not None:`; the sidebar (lines 112-138)
and footer (lines 140-142) always render. -/
def render_page (model : Option Model) : List UIElem :=
  [UIElem.title "World Bank Population Predictor",
   UIElem.description "This app predicts population based on country and year data!"] ++
  (match model with
   | none =>
     [UIElem.error_box "Model file not found! Please make sure 'machine_model.pkl' is in the same folder."]
   | some _ =>
     [UIElem.success_box "Model loaded successfully!",
      UIElem.text_field "Country Code (3 letters)",
      UIElem.number_field "Year",
      UIElem.text_field "Country ID (2 letters)",
      UIElem.text_field "Country Name",
      UIElem.button "Predict Population"]) ++
  [UIElem.sidebar_help, UIElem.footer]

/-- The column names of a frame, in order. -/
def keys (l : List (String × Value)) : List String := l.map Prod.fst

/-- The worked example of the app: Kenya, 2020. -/
def kenyaInput : RawInput :=
  { countryiso3code := "KEN", date := 2020, country_id := "KE", country_value := "Kenya" }

/-! Helper lemmas: distinctness of the generated column names. -/

/-- Two appended strings differ whenever the two front parts differ at some
common character position. -/
theorem String.append_ne_of_get_ne (p q x y : String) (i : Nat)
    (hp : i < p.data.length) (hq : i < q.data.length)
    (h : p.data[i]? ≠ q.data[i]?) : p ++ x ≠ q ++ y := by
  intro he
  apply h
  have hd : (p ++ x).data = (q ++ y).data := he ▸ rfl
  rw [String.data_append, String.data_append] at hd
  calc p.data[i]? = (p.data ++ x.data)[i]? := (List.getElem?_append_left hp).symm
    _ = (q.data ++ y.data)[i]? := by rw [hd]
    _ = q.data[i]? := List.getElem?_append_left hq

/-- An appended string is longer than any strictly shorter plain string. -/
theorem String.append_ne_of_length_lt (p x q : String) (h : q.length < p.length) :
    p ++ x ≠ q := by
  intro he
  have hl : (p ++ x).length = q.length := he ▸ rfl
  rw [String.length_append] at hl
  omega

theorem date_ne_iso (a : String) : "date" ≠ "countryiso3code_" ++ a := by
  have := String.append_ne_of_get_ne "date" "countryiso3code_" "" a 0
    (by decide) (by decide) (by decide)
  simpa using this

theorem date_ne_id (a : String) : "date" ≠ "country.id_" ++ a := by
  have := String.append_ne_of_get_ne "date" "country.id_" "" a 0
    (by decide) (by decide) (by decide)
  simpa using this

theorem date_ne_value (a : String) : "date" ≠ "country.value_" ++ a := by
  have := String.append_ne_of_get_ne "date" "country.value_" "" a 0
    (by decide) (by decide) (by decide)
  simpa using this

theorem iso_ne_id (a b : String) : "countryiso3code_" ++ a ≠ "country.id_" ++ b :=
  String.append_ne_of_get_ne "countryiso3code_" "country.id_" a b 7
    (by decide) (by decide) (by decide)

theorem iso_ne_value (a b : String) : "countryiso3code_" ++ a ≠ "country.value_" ++ b :=
  String.append_ne_of_get_ne "countryiso3code_" "country.value_" a b 7
    (by decide) (by decide) (by decide)

theorem id_ne_value (a b : String) : "country.id_" ++ a ≠ "country.value_" ++ b :=
  String.append_ne_of_get_ne "country.id_" "country.value_" a b 8
    (by decide) (by decide) (by decide)

theorem date_dummy_ne_date (v : String) : "date_" ++ v ≠ "date" :=
  String.append_ne_of_length_lt "date_" v "date" (by decide)

theorem date_dummy_ne_iso (v a : String) : "date_" ++ v ≠ "countryiso3code_" ++ a :=
  String.append_ne_of_get_ne "date_" "countryiso3code_" v a 0
    (by decide) (by decide) (by decide)

theorem date_dummy_ne_id (v a : String) : "date_" ++ v ≠ "country.id_" ++ a :=
  String.append_ne_of_get_ne "date_" "country.id_" v a 0
    (by decide) (by decide) (by decide)

theorem date_dummy_ne_value (v a : String) : "date_" ++ v ≠ "country.value_" ++ a :=
  String.append_ne_of_get_ne "date_" "country.value_" v a 0
    (by decide) (by decide) (by decide)

/-! Helper lemmas: the encoded frame. -/

/-- The encoded frame is the year column followed by one indicator column
per categorical field, in the order `pd.get_dummies` emits them. -/
theorem input_encoded_eq (r : RawInput) : input_encoded r =
    [("date", Value.i r.date),
     ("countryiso3code_" ++ r.countryiso3code, Value.i 1),
     ("country.id_" ++ r.country_id, Value.i 1),
     ("country.value_" ++ r.country_value, Value.i 1)] := rfl

theorem keys_input_encoded (r : RawInput) : keys (input_encoded r) =
    ["date", "countryiso3code_" ++ r.countryiso3code,
     "country.id_" ++ r.country_id, "country.value_" ++ r.country_value] := rfl

/-! Helper lemmas: `find?` on association lists. -/

theorem find?_isSome_of_mem_keys (l : List (String × Value)) (c : String)
    (h : c ∈ keys l) : (l.find? (fun p => p.1 == c)).isSome := by
  induction l with
  | nil => simp [keys] at h
  | cons x xs ih =>
    simp only [keys, List.map_cons, List.mem_cons] at h
    rcases h with h | h
    · simp [List.find?, h]
    · rw [List.find?]
      cases hx : (x.1 == c) with
      | true => simp
      | false => simpa [hx] using ih h

theorem find?_append_left_of_isSome (l l' : List (String × Value))
    (p : String × Value → Bool) (h : (l.find? p).isSome) :
    (l ++ l').find? p = l.find? p := by
  rw [List.find?_append]
  cases hl : l.find? p with
  | some q => rfl
  | none => rw [hl] at h; simp at h

theorem find?_append_right_of_none (l l' : List (String × Value))
    (p : String × Value → Bool) (h : l.find? p = none) :
    (l ++ l').find? p = l'.find? p := by
  rw [List.find?_append, h]
  rfl

theorem find?_eq_none_of_not_mem_keys (l : List (String × Value)) (c : String)
    (h : c ∉ keys l) : l.find? (fun p => p.1 == c) = none := by
  rw [List.find?_eq_none]
  intro x hx hbeq
  exact h (List.mem_map.mpr ⟨x, hx, by simpa using hbeq⟩)

theorem mem_keys_of_mem_keys_append_right (l l' : List (String × Value)) (c : String)
    (h : c ∈ keys (l ++ l')) (hl : c ∉ keys l) : c ∈ keys l' := by
  simp only [keys, List.map_append, List.mem_append] at h
  rcases h with h | h
  · exact absurd h hl
  · exact h

/-! Helper lemmas: the zero-fill loop. -/

/-- The zero-fill loop only appends columns, and every appended column holds
the value 0. -/
theorem addMissing_eq_append : ∀ (cols : List String) (enc : List (String × Value)),
    ∃ extra, addMissing enc cols = enc ++ extra ∧ ∀ q ∈ extra, q.2 = Value.i 0 := by
  intro cols
  induction cols with
  | nil => exact fun enc => ⟨[], by simp [addMissing]⟩
  | cons c rest ih =>
    intro enc
    rw [addMissing]
    by_cases hc : enc.any (fun p => p.1 == c) = true
    · simpa [hc] using ih enc
    · obtain ⟨extra, he, hz⟩ := ih (enc ++ [(c, Value.i 0)])
      refine ⟨(c, Value.i 0) :: extra, ?_, ?_⟩
      · simp [hc, he]
      · intro q hq
        rcases List.mem_cons.mp hq with h | h
        · rw [h]
        · exact hz q h

theorem keys_subset_addMissing (cols : List String) (enc : List (String × Value)) :
    keys enc ⊆ keys (addMissing enc cols) := by
  obtain ⟨extra, he, -⟩ := addMissing_eq_append cols enc
  rw [he]
  intro c hc
  simp only [keys, List.map_append, List.mem_append]
  exact Or.inl hc

/-- After the zero-fill loop every training column is present in the frame. -/
theorem mem_keys_addMissing : ∀ (cols : List String) (enc : List (String × Value))
    (c : String), c ∈ cols → c ∈ keys (addMissing enc cols) := by
  intro cols
  induction cols with
  | nil => intro enc c h; simp at h
  | cons c₀ rest ih =>
    intro enc c h
    rw [addMissing]
    by_cases hc : enc.any (fun p => p.1 == c₀) = true
    · rcases List.mem_cons.mp h with h | h
      · subst h
        obtain ⟨p, hp, hpc⟩ := List.any_eq_true.mp hc
        have : c ∈ keys enc := List.mem_map.mpr ⟨p, hp, by simpa using hpc⟩
        simpa [hc] using keys_subset_addMissing rest enc this
      · simpa [hc] using ih enc c h
    · rcases List.mem_cons.mp h with h | h
      · subst h
        have : c ∈ keys (enc ++ [(c, Value.i 0)]) := by
          simp [keys]
        simpa [hc] using keys_subset_addMissing rest (enc ++ [(c, Value.i 0)]) this
      · simpa [hc] using ih (enc ++ [(c₀, Value.i 0)]) c h

/-! Helper lemmas: column selection. -/

/-- When every requested column is present, selection succeeds and returns
exactly the requested columns in the requested order. -/
theorem selectCols_eq_some (enc : List (String × Value)) :
    ∀ cols : List String, (∀ c ∈ cols, (enc.find? (fun p => p.1 == c)).isSome) →
    ∃ v, selectCols enc cols = some v ∧ keys v = cols := by
  intro cols
  induction cols with
  | nil => exact fun _ => ⟨[], rfl, rfl⟩
  | cons c rest ih =>
    intro h
    obtain ⟨v, hv, hk⟩ := ih fun d hd => h d (List.mem_cons_of_mem c hd)
    have hc := h c (List.mem_cons_self c rest)
    rw [Option.isSome_iff_exists] at hc
    obtain ⟨q, hq⟩ := hc
    refine ⟨(c, q.2) :: v, ?_, ?_⟩
    · rw [selectCols, hq, hv]
      rfl
    · simp [keys] at hk ⊢
      exact hk

/-- Every selected column carries the value found for it in the frame. -/
theorem selectCols_mem (enc : List (String × Value)) :
    ∀ (cols : List String) (v : List (String × Value)) (c : String) (q : String × Value),
    selectCols enc cols = some v → c ∈ cols →
    enc.find? (fun p => p.1 == c) = some q → (c, q.2) ∈ v := by
  intro cols
  induction cols with
  | nil => intro v c q _ hc; simp at hc
  | cons c₀ rest ih =>
    intro v c q hv hc hq
    rw [selectCols] at hv
    rcases List.mem_cons.mp hc with h | h
    · subst h
      rw [hq] at hv
      obtain ⟨w, hw, hval⟩ := Option.map_eq_some'.mp hv
      rw [← hval]
      exact List.mem_cons_self _ _
    · revert hv
      cases enc.find? (fun p => p.1 == c₀) with
      | none => intro hv; simp at hv
      | some p₀ =>
        intro hv
        obtain ⟨w, hw, hval⟩ := Option.map_eq_some'.mp hv
        rw [← hval]
        exact List.mem_cons_of_mem _ (ih w c q hw h hq)

/-! Helper lemmas: `find?` on the encoded frame. -/

theorem find?_encoded_date (r : RawInput) :
    (input_encoded r).find? (fun p => p.1 == "date") = some ("date", Value.i r.date) := by
  rw [input_encoded_eq]
  exact List.find?_cons_of_pos _ (by simp)

theorem find?_encoded_iso (r : RawInput) :
    (input_encoded r).find? (fun p => p.1 == "countryiso3code_" ++ r.countryiso3code) =
      some ("countryiso3code_" ++ r.countryiso3code, Value.i 1) := by
  rw [input_encoded_eq]
  rw [List.find?_cons_of_neg _ (by simpa using date_ne_iso r.countryiso3code)]
  exact List.find?_cons_of_pos _ (by simp)

theorem find?_encoded_id (r : RawInput) :
    (input_encoded r).find? (fun p => p.1 == "country.id_" ++ r.country_id) =
      some ("country.id_" ++ r.country_id, Value.i 1) := by
  rw [input_encoded_eq]
  rw [List.find?_cons_of_neg _ (by simpa using date_ne_id r.country_id)]
  rw [List.find?_cons_of_neg _
    (by simpa using iso_ne_id r.countryiso3code r.country_id)]
  exact List.find?_cons_of_pos _ (by simp)

theorem find?_encoded_value (r : RawInput) :
    (input_encoded r).find? (fun p => p.1 == "country.value_" ++ r.country_value) =
      some ("country.value_" ++ r.country_value, Value.i 1) := by
  rw [input_encoded_eq]
  rw [List.find?_cons_of_neg _ (by simpa using date_ne_value r.country_value)]
  rw [List.find?_cons_of_neg _
    (by simpa using iso_ne_value r.countryiso3code r.country_value)]
  rw [List.find?_cons_of_neg _
    (by simpa using id_ne_value r.country_id r.country_value)]
  exact List.find?_cons_of_pos _ (by simp)

/-! Helper lemmas: the whole alignment block. -/

/-- With a non-empty schema the alignment never fails and returns exactly
the schema's columns in the schema's order. -/
theorem align_eq_some (r : RawInput) (cols : List String) (h : 0 < cols.length) :
    ∃ v, align r cols = some v ∧ keys v = cols := by
  rw [align]
  simp only [if_pos h]
  exact selectCols_eq_some (addMissing (input_encoded r) cols) cols
    fun c hc => find?_isSome_of_mem_keys _ c (mem_keys_addMissing cols (input_encoded r) c hc)

/-- Whatever the zero-filled frame holds for a schema column is what the
aligned vector holds for it. -/
theorem align_mem_of_find (r : RawInput) (cols : List String) (c : String)
    (q : String × Value) (h : 0 < cols.length) (hc : c ∈ cols)
    (hf : (addMissing (input_encoded r) cols).find? (fun p => p.1 == c) = some q)
    (v : List (String × Value)) (hv : align r cols = some v) : (c, q.2) ∈ v := by
  rw [align] at hv
  simp only [if_pos h] at hv
  exact selectCols_mem (addMissing (input_encoded r) cols) cols v c q hv hc hf

/-- Columns already present in the encoded frame keep their value through
the zero-fill loop. -/
theorem find?_filled_of_encoded (r : RawInput) (cols : List String) (c : String)
    (q : String × Value) (h : (input_encoded r).find? (fun p => p.1 == c) = some q) :
    (addMissing (input_encoded r) cols).find? (fun p => p.1 == c) = some q := by
  obtain ⟨extra, heq, -⟩ := addMissing_eq_append cols (input_encoded r)
  rw [heq, find?_append_left_of_isSome _ _ _ (by rw [h]; rfl)]
  exact h

/-- A schema column absent from the encoded frame comes out of the
zero-fill loop holding the value 0. -/
theorem find?_filled_unseen (r : RawInput) (cols : List String) (c : String)
    (hc : c ∈ cols) (hun : c ∉ keys (input_encoded r)) :
    ∃ q, (addMissing (input_encoded r) cols).find? (fun p => p.1 == c) = some q ∧
      q.2 = Value.i 0 := by
  obtain ⟨extra, heq, hz⟩ := addMissing_eq_append cols (input_encoded r)
  have hmem := mem_keys_addMissing cols (input_encoded r) c hc
  rw [heq] at hmem
  have hextra : c ∈ keys extra :=
    mem_keys_of_mem_keys_append_right _ _ _ hmem hun
  have hnone := find?_eq_none_of_not_mem_keys (input_encoded r) c hun
  rw [heq, find?_append_right_of_none _ _ _ hnone]
  obtain ⟨q, hq⟩ := Option.isSome_iff_exists.mp (find?_isSome_of_mem_keys extra c hextra)
  exact ⟨q, hq, hz q (List.mem_of_find?_eq_some hq)⟩

/-- Concrete model whose predictor always raises, with a two-column
training schema. -/
def boomModel : Model where
  predict := fun _ => Except.error "boom"
  feature_names_in_ := some ["date", "countryiso3code_USA"]

/-- Concrete model without the `feature_names_in_` attribute. -/
def noFeaturesModel : Model where
  predict := fun _ => Except.ok 0
  feature_names_in_ := none

/-! The claims. -/

/-- C1: for every raw input whose categorical values all have matching
`<fieldname>_<value>` columns in a non-empty expected schema, alignment
succeeds, the key set of the result equals the schema exactly and in the
schema's order, every matched indicator column holds 1, and the year
column holds the entered year. -/
theorem C1_align_seen_categories (r : RawInput) (schema : List String)
    (h0 : 0 < schema.length)
    (hiso : "countryiso3code_" ++ r.countryiso3code ∈ schema)
    (hid : "country.id_" ++ r.country_id ∈ schema)
    (hval : "country.value_" ++ r.country_value ∈ schema) :
    ∃ v, align r schema = some v ∧ keys v = schema ∧
      ("countryiso3code_" ++ r.countryiso3code, Value.i 1) ∈ v ∧
      ("country.id_" ++ r.country_id, Value.i 1) ∈ v ∧
      ("country.value_" ++ r.country_value, Value.i 1) ∈ v ∧
      ("date" ∈ schema → ("date", Value.i r.date) ∈ v) := by
  obtain ⟨v, hv, hk⟩ := align_eq_some r schema h0
  refine ⟨v, hv, hk, ?_, ?_, ?_, ?_⟩
  · exact align_mem_of_find r schema _ _ h0 hiso
      (find?_filled_of_encoded r schema _ _ (find?_encoded_iso r)) v hv
  · exact align_mem_of_find r schema _ _ h0 hid
      (find?_filled_of_encoded r schema _ _ (find?_encoded_id r)) v hv
  · exact align_mem_of_find r schema _ _ h0 hval
      (find?_filled_of_encoded r schema _ _ (find?_encoded_value r)) v hv
  · intro hdate
    exact align_mem_of_find r schema _ _ h0 hdate
      (find?_filled_of_encoded r schema _ _ (find?_encoded_date r)) v hv

/-- C1 witness: the Kenya 2020 scenario with the four-column schema, with
the exact output vector of the spec. -/
theorem C1_align_seen_categories_witness :
    0 < (["date", "countryiso3code_KEN", "country.id_KE",
          "country.value_Kenya"] : List String).length ∧
    "countryiso3code_" ++ kenyaInput.countryiso3code ∈
      ["date", "countryiso3code_KEN", "country.id_KE", "country.value_Kenya"] ∧
    "country.id_" ++ kenyaInput.country_id ∈
      ["date", "countryiso3code_KEN", "country.id_KE", "country.value_Kenya"] ∧
    "country.value_" ++ kenyaInput.country_value ∈
      ["date", "countryiso3code_KEN", "country.id_KE", "country.value_Kenya"] ∧
    (∃ v, align kenyaInput
        ["date", "countryiso3code_KEN", "country.id_KE", "country.value_Kenya"] = some v ∧
      keys v = ["date", "countryiso3code_KEN", "country.id_KE", "country.value_Kenya"] ∧
      ("countryiso3code_" ++ kenyaInput.countryiso3code, Value.i 1) ∈ v ∧
      ("country.id_" ++ kenyaInput.country_id, Value.i 1) ∈ v ∧
      ("country.value_" ++ kenyaInput.country_value, Value.i 1) ∈ v ∧
      ("date" ∈ ["date", "countryiso3code_KEN", "country.id_KE",
          "country.value_Kenya"] → ("date", Value.i kenyaInput.date) ∈ v)) ∧
    align kenyaInput ["date", "countryiso3code_KEN", "country.id_KE", "country.value_Kenya"] =
      some [("date", Value.i 2020), ("countryiso3code_KEN", Value.i 1),
            ("country.id_KE", Value.i 1), ("country.value_Kenya", Value.i 1)] :=
  ⟨by decide, by decide, by decide, by decide,
   C1_align_seen_categories kenyaInput
     ["date", "countryiso3code_KEN", "country.id_KE", "country.value_Kenya"]
     (by decide) (by decide) (by decide) (by decide),
   rfl⟩

/-- C2: for every raw input and non-empty schema, a schema column that
matches none of the one-hot columns comes out with the value 0, the result
has exactly the schema's length and key set, and every one-hot column
absent from the schema is dropped. -/
theorem C2_align_unseen_category (r : RawInput) (schema : List String) (c : String)
    (h0 : 0 < schema.length) (hc : c ∈ schema)
    (hun : c ∉ keys (input_encoded r)) :
    ∃ v, align r schema = some v ∧ keys v = schema ∧ v.length = schema.length ∧
      (c, Value.i 0) ∈ v ∧
      ∀ d ∈ keys (input_encoded r), d ∉ schema → d ∉ keys v := by
  obtain ⟨v, hv, hk⟩ := align_eq_some r schema h0
  obtain ⟨q, hq, hq0⟩ := find?_filled_unseen r schema c hc hun
  have hmem := align_mem_of_find r schema c q h0 hc hq v hv
  rw [hq0] at hmem
  refine ⟨v, hv, hk, ?_, hmem, ?_⟩
  · rw [← hk]
    simp [keys]
  · intro d _ hd
    rw [hk]
    exact hd

/-- C2 witness: the Kenya 2020 scenario with the schema that only knows the
USA indicator, with the exact output vector of the spec. -/
theorem C2_align_unseen_category_witness :
    0 < (["date", "countryiso3code_USA"] : List String).length ∧
    "countryiso3code_USA" ∈ (["date", "countryiso3code_USA"] : List String) ∧
    "countryiso3code_USA" ∉ keys (input_encoded kenyaInput) ∧
    (∃ v, align kenyaInput ["date", "countryiso3code_USA"] = some v ∧
      keys v = ["date", "countryiso3code_USA"] ∧
      v.length = (["date", "countryiso3code_USA"] : List String).length ∧
      ("countryiso3code_USA", Value.i 0) ∈ v ∧
      ∀ d ∈ keys (input_encoded kenyaInput),
        d ∉ (["date", "countryiso3code_USA"] : List String) → d ∉ keys v) ∧
    align kenyaInput ["date", "countryiso3code_USA"] =
      some [("date", Value.i 2020), ("countryiso3code_USA", Value.i 0)] :=
  ⟨by decide, by decide, by decide,
   C2_align_unseen_category kenyaInput ["date", "countryiso3code_USA"]
     "countryiso3code_USA" (by decide) (by decide) (by decide),
   rfl⟩

/-- C3: when the model exposes no `feature_names_in_`, or an empty one, the
training schema is empty and the alignment block returns the raw one-hot
encoded frame unmodified. -/
theorem C3_empty_schema_passthrough (r : RawInput) (m : Model)
    (h : m.feature_names_in_ = none ∨ m.feature_names_in_ = some []) :
    training_columns_of m = [] ∧
    align r (training_columns_of m) = some (input_encoded r) := by
  have ht : training_columns_of m = [] := by
    rcases h with h | h <;> simp [training_columns_of, h]
  rw [ht]
  exact ⟨rfl, rfl⟩

/-- C3 witness: a model without the attribute, on the Kenya input. -/
theorem C3_empty_schema_passthrough_witness :
    (noFeaturesModel.feature_names_in_ = none ∨
      noFeaturesModel.feature_names_in_ = some []) ∧
    (training_columns_of noFeaturesModel = [] ∧
      align kenyaInput (training_columns_of noFeaturesModel) =
        some (input_encoded kenyaInput)) :=
  ⟨Or.inl rfl, C3_empty_schema_passthrough kenyaInput noFeaturesModel (Or.inl rfl)⟩

/-- C4 counterexample: with an empty schema the alignment block does not
fail — it returns a value (the unaligned one-hot frame), so no
`AlignmentError` is raised. -/
theorem C4_counterexample :
    align kenyaInput [] = some (input_encoded kenyaInput) ∧
    (align kenyaInput []).isSome = true := ⟨rfl, rfl⟩

/-- C4 amended: when the expected schema is empty or unavailable, `align`
does not fail with any error; it falls back to returning the raw one-hot
output unaligned. -/
theorem C4_empty_schema_no_failure (r : RawInput) (m : Model)
    (h : training_columns_of m = []) :
    align r (training_columns_of m) = some (input_encoded r) ∧
    (align r (training_columns_of m)).isSome = true := by
  rw [h]
  exact ⟨rfl, rfl⟩

/-- C4 witness: the fallback on a model without the attribute. -/
theorem C4_empty_schema_no_failure_witness :
    training_columns_of noFeaturesModel = [] ∧
    (align kenyaInput (training_columns_of noFeaturesModel) =
        some (input_encoded kenyaInput) ∧
      (align kenyaInput (training_columns_of noFeaturesModel)).isSome = true) :=
  ⟨rfl, C4_empty_schema_no_failure kenyaInput noFeaturesModel rfl⟩

/-- C5: the alignment transform is deterministic — equal raw inputs and
equal schemas give equal results. -/
theorem C5_align_deterministic (r₁ r₂ : RawInput) (s₁ s₂ : List String)
    (hr : r₁ = r₂) (hs : s₁ = s₂) : align r₁ s₁ = align r₂ s₂ := by
  rw [hr, hs]

/-- C5 witness: two identical calls on the Kenya scenario. -/
theorem C5_align_deterministic_witness :
    kenyaInput = kenyaInput ∧
    align kenyaInput ["date", "countryiso3code_KEN"] =
      align kenyaInput ["date", "countryiso3code_KEN"] :=
  ⟨rfl, C5_align_deterministic kenyaInput kenyaInput
    ["date", "countryiso3code_KEN"] ["date", "countryiso3code_KEN"] rfl rfl⟩

/-- C6: the year is carried as the single raw numeric column named date,
holding the entered value; one-hot encoding touches only the three
categorical fields, and no column of the form `date_<value>` is ever
produced. -/
theorem C6_year_never_one_hot (r : RawInput) :
    ("date", Value.i r.date) ∈ input_encoded r ∧
    keys (input_encoded r) =
      ["date", "countryiso3code_" ++ r.countryiso3code,
       "country.id_" ++ r.country_id, "country.value_" ++ r.country_value] ∧
    ∀ v : String, ("date_" ++ v) ∉ keys (input_encoded r) := by
  refine ⟨?_, keys_input_encoded r, ?_⟩
  · rw [input_encoded_eq]
    exact List.mem_cons_self _ _
  · intro v hv
    rw [keys_input_encoded] at hv
    simp only [List.mem_cons, List.not_mem_nil, or_false] at hv
    rcases hv with h | h | h | h
    · exact date_dummy_ne_date v h
    · exact date_dummy_ne_iso v r.countryiso3code h
    · exact date_dummy_ne_id v r.country_id h
    · exact date_dummy_ne_value v r.country_value h

/-- C7: one-hot encoding produces, for each of the three categorical
fields, exactly one indicator column named `<fieldname>_<value>` set to 1,
so the encoded frame has exactly four pairwise distinct columns: date plus
one indicator per categorical field. -/
theorem C7_one_indicator_per_field (r : RawInput) :
    input_encoded r =
      [("date", Value.i r.date),
       ("countryiso3code_" ++ r.countryiso3code, Value.i 1),
       ("country.id_" ++ r.country_id, Value.i 1),
       ("country.value_" ++ r.country_value, Value.i 1)] ∧
    (input_encoded r).length = 4 ∧
    (keys (input_encoded r)).Nodup := by
  refine ⟨input_encoded_eq r, rfl, ?_⟩
  rw [keys_input_encoded]
  refine List.nodup_cons.mpr ⟨?_, List.nodup_cons.mpr ⟨?_,
    List.nodup_cons.mpr ⟨?_, List.nodup_singleton _⟩⟩⟩
  · simp only [List.mem_cons, List.not_mem_nil, or_false, not_or]
    exact ⟨date_ne_iso _, date_ne_id _, date_ne_value _⟩
  · simp only [List.mem_cons, List.not_mem_nil, or_false, not_or]
    exact ⟨iso_ne_id _ _, iso_ne_value _ _⟩
  · simp only [List.mem_singleton]
    exact id_ne_value _ _

/-- C8: whenever the model's `predict` raises on the aligned vector, the
handler catches it and reports a recoverable failure carrying the input
shape (1 row by the vector's length) and the expected feature count, and
the handler still returns normally. -/
theorem C8_predict_failure_reported (m : Model) (r : RawInput)
    (vec : List (String × Value)) (e : String)
    (hvec : align r (training_columns_of m) = some vec)
    (herr : m.predict vec = Except.error e) :
    predict_block m r =
      some (Outcome.failure e (1, vec.length)
        (if (training_columns_of m).isEmpty then none
         else some (training_columns_of m).length)) ∧
    predict_block m r ≠ none := by
  have h : predict_block m r =
      some (Outcome.failure e (1, vec.length)
        (if (training_columns_of m).isEmpty then none
         else some (training_columns_of m).length)) := by
    simp only [predict_block, hvec, herr]
  exact ⟨h, by rw [h]; exact Option.some_ne_none _⟩

/-- C8 witness: a model that always raises, on the Kenya input with the
USA-only schema. -/
theorem C8_predict_failure_reported_witness :
    align kenyaInput (training_columns_of boomModel) =
      some [("date", Value.i 2020), ("countryiso3code_USA", Value.i 0)] ∧
    boomModel.predict [("date", Value.i 2020), ("countryiso3code_USA", Value.i 0)] =
      Except.error "boom" ∧
    predict_block boomModel kenyaInput =
      some (Outcome.failure "boom" (1, 2) (some 2)) ∧
    predict_block boomModel kenyaInput ≠ none := by
  have h := C8_predict_failure_reported boomModel kenyaInput
    [("date", Value.i 2020), ("countryiso3code_USA", Value.i 0)] "boom" rfl rfl
  exact ⟨rfl, rfl, h.1, h.2⟩

/-- C9 counterexample: when the model artifact is unavailable the rendered
page contains an error box but no input field and no submit button — the
form does not render, contrary to the claim. -/
theorem C9_counterexample :
    ((render_page none).any is_form_element) = false ∧
    ((render_page none).any is_error_box) = true := ⟨rfl, rfl⟩

/-- C9 amended: when the model artifact cannot be located, the page still
renders (title, the error box of `load_model`, sidebar and footer) and
prediction is disabled, but the input form and submit button are not
rendered, because they sit inside the model-is-loaded branch; with a
loaded model the form does render. -/
theorem C9_no_model_page :
    render_page none =
      [UIElem.title "World Bank Population Predictor",
       UIElem.description "This app predicts population based on country and year data!",
       UIElem.error_box "Model file not found! Please make sure 'machine_model.pkl' is in the same folder.",
       UIElem.sidebar_help, UIElem.footer] ∧
    ((render_page none).any is_form_element) = false ∧
    ((render_page none).any is_error_box) = true ∧
    ((render_page (some noFeaturesModel)).any is_form_element) = true :=
  ⟨rfl, rfl, rfl, rfl⟩

/-- C10: for every raw input and every non-empty schema the alignment block
is total: every schema column is present after the zero-fill loop, so the
column selection cannot fail, and `align` returns a vector. -/
theorem C10_alignment_never_fails (r : RawInput) (schema : List String)
    (h : 0 < schema.length) :
    (∀ c ∈ schema, c ∈ keys (addMissing (input_encoded r) schema)) ∧
    ∃ v, selectCols (addMissing (input_encoded r) schema) schema = some v ∧
      align r schema = some v := by
  refine ⟨fun c hc => mem_keys_addMissing schema (input_encoded r) c hc, ?_⟩
  obtain ⟨v, hv, -⟩ := align_eq_some r schema h
  refine ⟨v, ?_, hv⟩
  rw [align] at hv
  simpa only [if_pos h] using hv

/-- C10 witness: the Kenya input with a schema made of columns the encoded
frame has never seen. -/
theorem C10_alignment_never_fails_witness :
    0 < (["mystery", "bogus_column"] : List String).length ∧
    ((∀ c ∈ (["mystery", "bogus_column"] : List String),
        c ∈ keys (addMissing (input_encoded kenyaInput) ["mystery", "bogus_column"])) ∧
      ∃ v, selectCols (addMissing (input_encoded kenyaInput) ["mystery", "bogus_column"])
          ["mystery", "bogus_column"] = some v ∧
        align kenyaInput ["mystery", "bogus_column"] = some v) :=
  ⟨by decide,
   C10_alignment_never_fails kenyaInput ["mystery", "bogus_column"] (by decide)⟩

end PopulationApp
